import Mathlib

/-!
Verification development for the swap-curve bootstrapping library
(`modules/curves.py`).  The Python source is shallowly embedded below:

* dates (`datetime`) become a `Date` structure of year/month/day, with
  subtraction modelled through a day-ordinal (the standard civil-from-days /
  days-from-civil correspondence, so that `d2 - d1` in days and chronological
  comparison agree with `datetime` semantics);
* floats become real numbers (`ℝ`) where the code uses `exp`/`log`, and an
  arbitrary `LinearOrderedField` (instantiated at `ℚ` for concrete runs)
  where the solver loop only compares, adds and multiplies;
* code that can raise (`datetime` construction, `None` propagation through
  arithmetic) returns `Option`;
* the parts of the solver that live outside `curves.py` (dual-number
  arithmetic in `modules/dual.py`, `numpy.linalg.solve`) enter as abstract
  parameters: the loop is modelled over an arbitrary objective/update pair,
  which is what `SolvedCurve.iterate` actually sees through
  `calculate_metrics` and `update_step_*`.
-/

/-! ### Date model (`datetime` year/month/day) -/

structure Date where
  year : Int
  month : Nat
  day : Nat
deriving DecidableEq, Repr

/-- Python `datetime` leap-year rule (proleptic Gregorian). -/
def isLeapYear (y : Int) : Bool :=
  (y.emod 4 == 0 && y.emod 100 != 0) || (y.emod 400 == 0)

/-- Number of days of month `m` of year `y`; the bound checked by the
`datetime(year, month, day)` constructor. -/
def daysInMonth (y : Int) (m : Nat) : Nat :=
  if m = 2 then (if isLeapYear y then 29 else 28)
  else if m = 4 ∨ m = 6 ∨ m = 9 ∨ m = 11 then 30
  else 31

/-- Day ordinal of a civil date (days counted from 1970-01-01, the standard
days-from-civil computation).  `datetime` subtraction of two midnight dates
yields exactly this difference in days, and `datetime` ordering is the
ordering of this ordinal. -/
def toOrdinal (d : Date) : Int :=
  let y : Int := if d.month ≤ 2 then d.year - 1 else d.year
  let era : Int := Int.fdiv y 400
  let yoe : Int := y - era * 400
  let mp : Int := ((d.month : Int) + 9).emod 12
  let doy : Int := (153 * mp + 2).tdiv 5 + (d.day : Int) - 1
  let doe : Int := yoe * 365 + yoe.tdiv 4 - yoe.tdiv 100 + doy
  era * 146097 + doe - 719468

/-- Inverse of `toOrdinal` (the standard civil-from-days computation);
models `datetime + timedelta(days=n)`. -/
def fromOrdinal (z0 : Int) : Date :=
  let z : Int := z0 + 719468
  let era : Int := Int.fdiv z 146097
  let doe : Int := z - era * 146097
  let yoe : Int := (doe - doe.tdiv 1460 + doe.tdiv 36524 - doe.tdiv 146096).tdiv 365
  let y : Int := yoe + era * 400
  let doy : Int := doe - (365 * yoe + yoe.tdiv 4 - yoe.tdiv 100)
  let mp : Int := (5 * doy + 2).tdiv 153
  let d : Int := doy - (153 * mp + 2).tdiv 5 + 1
  let m : Int := if mp < 10 then mp + 3 else mp - 9
  ⟨(if m ≤ 2 then y + 1 else y), m.toNat, d.toNat⟩

/-- `a - b` for two dates, in days (a `timedelta` in the source). -/
def dSub (a b : Date) : Int := toOrdinal a - toOrdinal b

/-- `datetime` comparison `a <= b` (chronological). -/
def dLE (a b : Date) : Prop := toOrdinal a ≤ toOrdinal b

instance (a b : Date) : Decidable (dLE a b) := by
  unfold dLE; infer_instance

/-! ### `add_months` / `add_days`

Python (`curves.py`, `add_months`):
```
year_roll = int((start.month + months - 1) / 12)
month = (start.month + months) % 12
month = 12 if month == 0 else month
try:
    end = datetime(start.year + year_roll, month, start.day)
except ValueError:  # day is out of range for month
    return add_months(datetime(start.year, start.month, start.day-1), months)
else:
    return end
```
Python `int(x)` truncates toward zero, so `year_roll` is `Int.tdiv`; Python
`%` on ints is `Int.emod` (result has the sign of the divisor).  The
recursive retry decreases the day by one; constructing `datetime(y, m, 0)`
raises an uncaught `ValueError`, modelled by `none`. -/

/-- `int((month + months - 1) / 12)` of the source (truncation toward 0). -/
def yearRoll (month : Nat) (months : Int) : Int :=
  Int.tdiv ((month : Int) + months - 1) 12

/-- `(month + months) % 12`, then `12 if month == 0 else month`. -/
def monthWrap (month : Nat) (months : Int) : Nat :=
  let m : Int := ((month : Int) + months).emod 12
  if m = 0 then 12 else m.toNat

/-- The spec's stated year computation uses a floor division
(`⌊(month + n − 1)/12⌋`); kept separately to compare with the source's
truncating `yearRoll`. -/
def yearRollFloor (month : Nat) (months : Int) : Int :=
  Int.fdiv ((month : Int) + months - 1) 12

/-- Recursion of `add_months` on the (strictly decreasing) day. -/
def add_monthsRec (year : Int) (month : Nat) (months : Int) : Nat → Option Date
  | 0 => none
  | Nat.succ dm1 =>
    if dm1 + 1 ≤ daysInMonth (year + yearRoll month months) (monthWrap month months) then
      some ⟨year + yearRoll month months, monthWrap month months, dm1 + 1⟩
    else
      add_monthsRec year month months dm1

/-- `add_months(start, months)` of the source. -/
def add_months (d : Date) (months : Int) : Option Date :=
  add_monthsRec d.year d.month months d.day

/-- `add_days(start, days)` of the source (`start + timedelta(days=days)`). -/
def add_days (d : Date) (days : Int) : Date :=
  fromOrdinal (toOrdinal d + days)

/-! ### Theorems: claims C6 and C7 -/

/-- C6: when the starting day-of-month is invalid in the target month,
`add_months` retries with the day reduced by one (repeating as needed); in
particular `add_months(2021-01-31, 1) = 2021-02-28` and
`add_months(2020-01-31, 1) = 2020-02-29` (modified month-end rule). -/
theorem add_months_modified_month_end :
    (∀ (d : Date) (n : Int),
      ¬ d.day ≤ daysInMonth (d.year + yearRoll d.month n) (monthWrap d.month n) →
      add_months d n = add_months ⟨d.year, d.month, d.day - 1⟩ n) ∧
    add_months ⟨2021, 1, 31⟩ 1 = some ⟨2021, 2, 28⟩ ∧
    add_months ⟨2020, 1, 31⟩ 1 = some ⟨2020, 2, 29⟩ := by
  refine ⟨?_, by decide, by decide⟩
  rintro ⟨y, m, day⟩ n h
  cases day with
  | zero => exact absurd (Nat.zero_le _) h
  | succ dm1 =>
    simp only [add_months, add_monthsRec, Nat.succ_sub_one]
    rw [if_neg h]

/-- C6 witness: the retry equation applied at the concrete invalid date
Feb 31, 2021 (31 > 28 days of February 2021). -/
theorem add_months_modified_month_end_witness :
    add_months ⟨2021, 1, 31⟩ 1 = add_months ⟨2021, 1, 30⟩ 1 :=
  add_months_modified_month_end.1 ⟨2021, 1, 31⟩ 1 (by decide)

/-- C7: the source computes the target year with Python `int(...)`, which
truncates toward zero, not with a floor division as the claim states.  At
`add_months(2020-01-15, -1)` the code returns 2020-12-15 — eleven months
*later* (contradicting its own docstring "add a given number of months"),
while the floor rule of the claim gives year 2019 (2019-12-15). -/
theorem add_months_negative_months_truncation_bug :
    add_months ⟨2020, 1, 15⟩ (-1) = some ⟨2020, 12, 15⟩ ∧
    yearRoll 1 (-1) = 0 ∧
    yearRollFloor 1 (-1) = -1 ∧
    (2020 : Int) + yearRollFloor 1 (-1) = 2019 := by
  refine ⟨by decide, by decide, by decide, by decide⟩


/-! ### Interpolation kernel (`interpolate`) and curve lookup

`interpolate(x, x_1, y_1, x_2, y_2, interpolation, start)` of the source,
over real node values.  Date differences are `timedelta`s divided by
`timedelta(days=365)` (exact day ratios).  The `linear_zero_rate` rule
guards the left endpoint: when `start - x_1 == 0` it sets the left zero
rate to the right one. -/

inductive Interp where
  | linear
  | log_linear
  | linear_zero_rate
deriving DecidableEq

/-- `(a - b) / timedelta(days=365)` as a real number. -/
noncomputable def yf365 (a b : Date) : ℝ := ((dSub a b : Int) : ℝ) / 365

noncomputable def interpolate (x x_1 : Date) (y_1 : ℝ) (x_2 : Date) (y_2 : ℝ)
    (rule : Interp) (start : Date) : ℝ :=
  match rule with
  | .linear =>
      y_1 + (y_2 - y_1) * ((dSub x x_1 : Int) : ℝ) / ((dSub x_2 x_1 : Int) : ℝ)
  | .log_linear =>
      Real.exp (Real.log y_1 +
        (Real.log y_2 - Real.log y_1) * ((dSub x x_1 : Int) : ℝ) /
          ((dSub x_2 x_1 : Int) : ℝ))
  | .linear_zero_rate =>
      Real.exp (yf365 start x *
        ((if dSub start x_1 = 0 then Real.log y_2 / yf365 start x_2
          else Real.log y_1 / yf365 start x_1) +
         (Real.log y_2 / yf365 start x_2 -
          (if dSub start x_1 = 0 then Real.log y_2 / yf365 start x_2
           else Real.log y_1 / yf365 start x_1)) *
           ((dSub x x_1 : Int) : ℝ) / ((dSub x_2 x_1 : Int) : ℝ)))

/-- `Curve`: ordered node table (date → discount factor, dates distinct as
dict keys) plus an interpolation tag. -/
structure Curve where
  nodes : List (Date × ℝ)
  interpolation : Interp

/-- `node_dates[i]` (dict keys are distinct, so positional access agrees
with the source's dict lookup; the default is never reached on the control
paths of `__getitem__`). -/
noncomputable def Curve.nodeDate (c : Curve) (i : Nat) : Date :=
  (c.nodes.getD i (⟨1, 1, 1⟩, 0)).1

/-- `self.nodes[node_dates[i]]`. -/
noncomputable def Curve.nodeVal (c : Curve) (i : Nat) : ℝ :=
  (c.nodes.getD i (⟨1, 1, 1⟩, 0)).2

/-- The scan of `Curve.__getitem__`: `for i, node_date_1 in
enumerate(node_dates[1:])`, returning at the first `i` with
`date <= node_date_1 or i == len(node_dates) - 2`; falling off the loop
returns Python `None`. -/
noncomputable def getItemGo (c : Curve) (date : Date) (i : Nat) (l : List Date) :
    Option ℝ :=
  match l with
  | [] => none
  | d1 :: rest =>
    if dLE date d1 ∨ i = c.nodes.length - 2 then
      some (interpolate date (c.nodeDate i) (c.nodeVal i) d1 (c.nodeVal (i + 1))
        c.interpolation (c.nodeDate 0))
    else getItemGo c date (i + 1) rest

/-- `Curve.__getitem__(date)`. -/
noncomputable def Curve.getItem (c : Curve) (date : Date) : Option ℝ :=
  getItemGo c date 0 ((c.nodes.map Prod.fst).drop 1)

/-! ### Theorems: claims C8, C9, C10 -/

/-- C8: under `linear_zero_rate`, when the anchor equals the left endpoint
(`start - x_1 == 0`) the left zero rate is set to `z_2` rather than computed
as `log(y_1)` over the zero anchor gap: the result is
`exp(((start-x)/365) * z_2)` and is independent of `y_1`. -/
theorem interpolate_linear_zero_rate_anchor_guard
    (x x_1 x_2 start : Date) (y_1 y_1' y_2 : ℝ)
    (h : dSub start x_1 = 0) :
    interpolate x x_1 y_1 x_2 y_2 .linear_zero_rate start
      = Real.exp (yf365 start x * (Real.log y_2 / yf365 start x_2)) ∧
    interpolate x x_1 y_1 x_2 y_2 .linear_zero_rate start
      = interpolate x x_1 y_1' x_2 y_2 .linear_zero_rate start := by
  have e : ∀ w : ℝ, interpolate x x_1 w x_2 y_2 .linear_zero_rate start
      = Real.exp (yf365 start x * (Real.log y_2 / yf365 start x_2)) := by
    intro w
    simp only [interpolate, if_pos h]
    congr 1
    ring
  exact ⟨e y_1, (e y_1).trans (e y_1').symm⟩

/-- C8 witness: the guard applied with anchor = left endpoint 2020-01-01,
query 2020-06-01, right endpoint 2021-01-01: the result is the `z_2`-only
formula, for the arbitrary left value 5. -/
theorem interpolate_linear_zero_rate_anchor_guard_witness :
    interpolate ⟨2020, 6, 1⟩ ⟨2020, 1, 1⟩ 5 ⟨2021, 1, 1⟩ (1/2)
        .linear_zero_rate ⟨2020, 1, 1⟩
      = Real.exp (yf365 ⟨2020, 1, 1⟩ ⟨2020, 6, 1⟩ *
          (Real.log (1/2) / yf365 ⟨2020, 1, 1⟩ ⟨2021, 1, 1⟩)) :=
  (interpolate_linear_zero_rate_anchor_guard ⟨2020, 6, 1⟩ ⟨2020, 1, 1⟩
    ⟨2021, 1, 1⟩ ⟨2020, 1, 1⟩ 5 7 (1/2) (by decide)).1

/-- The two-node linear curve of the spec's first scenario. -/
noncomputable def twoNodeCurve : Curve :=
  ⟨[(⟨2020, 1, 1⟩, 1), (⟨2030, 1, 1⟩, 0.6065)], .linear⟩

/-- Value of the lookup `twoNodeCurve[2025-01-01]`: 2025-01-01 lies 1827 of
3653 days between the nodes (helper shared by the C9 theorems). -/
theorem twoNodeCurve_getItem_2025 :
    twoNodeCurve.getItem ⟨2025, 1, 1⟩ = some (1 + (0.6065 - 1) * 1827 / 3653) := by
  have h1 : dSub ⟨2025, 1, 1⟩ ⟨2020, 1, 1⟩ = 1827 := by decide
  have h2 : dSub ⟨2030, 1, 1⟩ ⟨2020, 1, 1⟩ = 3653 := by decide
  have hle : dLE ⟨2025, 1, 1⟩ ⟨2030, 1, 1⟩ := by decide
  simp [twoNodeCurve, Curve.getItem, getItemGo, interpolate, Curve.nodeDate,
    Curve.nodeVal, h1, h2, hle]

/-- C9 counterexample: the lookup on the two-node curve
{2020-01-01: 1.0, 2030-01-01: 0.6065} at 2025-01-01 returns
`1 + (0.6065 - 1)·1827/3653 ≈ 0.8031962`, which is not the midpoint value
`(1.0 + 0.6065)/2 = 0.80325` asserted by the claim (2025-01-01 is 1827 of
3653 days along the bracket, not half way). -/
theorem twoNode_lookup_ne_midpoint :
    twoNodeCurve.getItem ⟨2025, 1, 1⟩ = some (1 + (0.6065 - 1) * 1827 / 3653) ∧
    (1 + ((0.6065 : ℝ) - 1) * 1827 / 3653) ≠ 0.80325 :=
  ⟨twoNodeCurve_getItem_2025, by norm_num⟩

/-- C9 amended: the lookup `twoNodeCurve[2025-01-01]` returns the linear
interpolation at 1827 of 3653 days, `1 + (0.6065 - 1)·1827/3653`
(approximately 0.8031962, not the midpoint 0.80325). -/
theorem twoNode_lookup_value :
    twoNodeCurve.getItem ⟨2025, 1, 1⟩ = some (1 + (0.6065 - 1) * 1827 / 3653) :=
  twoNodeCurve_getItem_2025

/-- C10: a curve with fewer than two nodes returns `None` for every query
date: the scan runs over `node_dates[1:]`, which is empty, so no `return`
is reached and no exception is raised. -/
theorem getItem_none_of_lt_two_nodes :
    ∀ c : Curve, c.nodes.length < 2 → ∀ d : Date, c.getItem d = none := by
  rintro ⟨nodes, interp⟩ h d
  match nodes, h with
  | [], _ => rfl
  | [a], _ => rfl

/-- A one-node curve, for the C10 witness. -/
noncomputable def singleNodeCurve : Curve := ⟨[(⟨2020, 1, 1⟩, 1)], .linear⟩

/-- C10 witness: the one-node curve returns `None` at a concrete date. -/
theorem getItem_none_of_lt_two_nodes_witness :
    singleNodeCurve.getItem ⟨2025, 1, 1⟩ = none :=
  getItem_none_of_lt_two_nodes singleNodeCurve (by simp [singleNodeCurve]) ⟨2025, 1, 1⟩

/-! ### Schedules and swaps

`Schedule(start, tenor, period, days)` builds `ceil(tenor/period)` periods;
the first `n_periods - 1` step by `add_op(·, period)`, the final one ends at
`add_op(start, tenor)`.  Each entry is `(period_start, period_end,
(period_end - period_start)/timedelta(days=365))`.  `add_months` always
succeeds on a valid calendar date (the retry stops at day 28 at the
latest), so the `getD` fallback below is unreachable on real inputs. -/

def addOp (days : Bool) (d : Date) (k : Nat) : Date :=
  if days then add_days d (k : Int) else (add_months d (k : Int)).getD d

structure Schedule where
  start : Date
  tenor : Nat
  period : Nat
  days : Bool

/-- `self.end = self.add_op(start, tenor)`. -/
def Schedule.endDate (s : Schedule) : Date := addOp s.days s.start s.tenor

/-- `n_periods = ceil(tenor / period)` (Python would divide by zero for
`period = 0`; such schedules are outside the source's domain). -/
def Schedule.nPeriods (s : Schedule) : Nat := (s.tenor + s.period - 1) / s.period

/-- The loop of `Schedule.data`: `k` counts the remaining regular periods
(`n_periods - 1` at the top), then the final (possibly stub) period closes
at `endD`. -/
noncomputable def scheduleGo (days : Bool) (period : Nat) (endD : Date) :
    Nat → Date → List (Date × Date × ℝ)
  | 0, ps => [(ps, endD, yf365 endD ps)]
  | k + 1, ps =>
      (ps, addOp days ps period, yf365 (addOp days ps period) ps) ::
        scheduleGo days period endD k (addOp days ps period)

/-- `Schedule.data`. -/
noncomputable def Schedule.data (s : Schedule) : List (Date × Date × ℝ) :=
  scheduleGo s.days s.period s.endDate (s.nPeriods - 1) s.start

inductive Leg where
  | fix
  | leg_float
deriving DecidableEq

structure Swap where
  start : Date
  tenor : Nat
  period_fix : Nat
  period_float : Nat
  days : Bool

/-- `getattr(self, f"schedule_{leg}")`: both schedules share start and
tenor and differ only in the period length. -/
def Swap.schedule (sw : Swap) (leg : Leg) : Schedule :=
  ⟨sw.start, sw.tenor, (match leg with | .fix => sw.period_fix
                                       | .leg_float => sw.period_float), sw.days⟩

/-- `self.end = self.add_op(start, tenor)`. -/
def Swap.endDate (sw : Swap) : Date := addOp sw.days sw.start sw.tenor

/-- The accumulation `delta += curve[period[1]] * period[2]`; a `None`
lookup would raise a `TypeError` in Python, modelled by `Option`
propagation. -/
noncomputable def deltaSum (c : Curve) : List (Date × Date × ℝ) → Option ℝ
  | [] => some 0
  | p :: rest => do
      let df ← c.getItem p.2.1
      let s ← deltaSum c rest
      pure (df * p.2.2 + s)

/-- `Swap.analytic_delta(curve, leg, notional)`. -/
noncomputable def Swap.analytic_delta (sw : Swap) (c : Curve) (leg : Leg)
    (notional : ℝ) : Option ℝ :=
  (deltaSum c (sw.schedule leg).data).map (fun d => d * notional / 10000)

/-- `Swap.rate(curve)`; the analytic delta is taken on the fixed leg at its
default notional `1e4`. -/
noncomputable def Swap.rate (sw : Swap) (c : Curve) : Option ℝ := do
  let a ← c.getItem sw.start
  let b ← c.getItem sw.endDate
  let ad ← sw.analytic_delta c .fix 10000
  pure ((a - b) / ad * 100)

/-- Helper for C5: when every period-end lookup succeeds, the accumulated
delta is the sum over the schedule of `DF(period_end) · year_fraction`. -/
theorem deltaSum_eq_sum (c : Curve) (l : List (Date × Date × ℝ))
    (h : ∀ p ∈ l, (c.getItem p.2.1).isSome) :
    deltaSum c l = some ((l.map (fun p => ((c.getItem p.2.1).getD 0) * p.2.2)).sum) := by
  induction l with
  | nil => simp [deltaSum]
  | cons p rest ih =>
    obtain ⟨df, hdf⟩ := Option.isSome_iff_exists.mp (h p (List.mem_cons_self p rest))
    have ih' := ih (fun q hq => h q (List.mem_cons_of_mem p hq))
    simp [deltaSum, hdf, ih']

/-! ### Theorems: claim C5 -/

/-- C5: `analytic_delta(curve, leg, notional)` is the sum over the leg's
schedule of `DF(period_end) · year_fraction`, scaled by `notional/10000`;
and `rate(curve)` is `(DF(start) - DF(end))` divided by the fixed-leg
analytic delta at its default notional, times 100 (whenever the lookups
involved succeed — a failed lookup raises in Python). -/
theorem swap_analytic_delta_and_rate_spec :
    (∀ (sw : Swap) (c : Curve) (leg : Leg) (notional : ℝ),
      (∀ p ∈ (sw.schedule leg).data, (c.getItem p.2.1).isSome) →
      sw.analytic_delta c leg notional =
        some (((sw.schedule leg).data.map
          (fun p => ((c.getItem p.2.1).getD 0) * p.2.2)).sum * notional / 10000)) ∧
    (∀ (sw : Swap) (c : Curve) (a b ad : ℝ),
      c.getItem sw.start = some a →
      c.getItem sw.endDate = some b →
      sw.analytic_delta c .fix 10000 = some ad →
      sw.rate c = some ((a - b) / ad * 100)) := by
  constructor
  · intro sw c leg notional h
    rw [Swap.analytic_delta, deltaSum_eq_sum c _ h]
    simp [mul_div_assoc]
  · intro sw c a b ad h1 h2 h3
    rw [Swap.rate, h1, h2, h3]
    rfl

/-- One-period swap (2020-01-01, 12 months, annual legs) for the C5
witness. -/
def wSwap : Swap := ⟨⟨2020, 1, 1⟩, 12, 12, 12, false⟩

/-- C5 witness: the analytic-delta formula instantiated on the one-period
swap against the two-node curve, every lookup of which succeeds. -/
theorem swap_analytic_delta_and_rate_spec_witness :
    wSwap.analytic_delta twoNodeCurve .fix 10000 =
      some (((wSwap.schedule .fix).data.map
        (fun p => ((twoNodeCurve.getItem p.2.1).getD 0) * p.2.2)).sum * 10000 / 10000) := by
  refine swap_analytic_delta_and_rate_spec.1 wSwap twoNodeCurve .fix 10000 ?_
  intro p hp
  have hd : (wSwap.schedule Leg.fix).data =
      [(⟨2020, 1, 1⟩, ⟨2021, 1, 1⟩, yf365 ⟨2021, 1, 1⟩ ⟨2020, 1, 1⟩)] := by
    have he : (wSwap.schedule Leg.fix).endDate = ⟨2021, 1, 1⟩ := by decide
    simp [Swap.schedule, Schedule.data, Schedule.nPeriods, scheduleGo, wSwap] at he ⊢
    simp [he]
  rw [hd] at hp
  have hle : dLE ⟨2021, 1, 1⟩ ⟨2030, 1, 1⟩ := by decide
  simp only [List.mem_singleton] at hp
  subst hp
  simp [twoNodeCurve, Curve.getItem, getItemGo, hle]

/-! ### The solver loop (`SolvedCurve.iterate`)

`iterate(max_i, tol)` of the source:
```
ret, self.f_prev, self.f_list = None, 1e10, []
for i in range(max_i):
    self.calculate_metrics()
    self.f_list.append(self.f.real)
    if self.f.real < self.f_prev and (self.f_prev - self.f.real) < tol:
        ret = ...tolerance message...
        break
    v_1 = getattr(self, f"update_step_...")()
    for i, (k, v) in enumerate(self.nodes.items()):
        if i == 0:
            continue
        self.nodes[k] = v_1[i - 1, 0]
    self.f_prev = self.f.real
self.lam = 1000
return ...max-iterations message... if ret is None else ret
```
`calculate_metrics` and the three `update_step_*` methods reach outside
`curves.py` (dual numbers, `numpy.linalg.solve`); `iterate` only observes
them as: a scalar objective `f.real` determined by the current nodes, and
an update `v_1` (together with the Marquardt damping `lam` it may rescale)
determined by the current nodes, `f_prev` and `lam`.  They are therefore
abstracted into an `Algo` record; the update always supplies `n` values in
the source (a solved n-by-n system), so the `getD` fallback in the
write-back is unreachable there.  The scalar type is any linear ordered
field (`ℚ` for executable runs, standing for the reals). -/

/-- Termination reasons: the human-readable status strings.  Exhausting
`max_i` produces `maxIterations` — a returned value, not an exception. -/
inductive TermStatus (α : Type) where
  | toleranceReached (algo : String) (iters : Nat) (f : α)
  | maxIterations (algo : String) (f : α)
deriving DecidableEq

/-- The solver internals seen by `iterate`: algorithm name, the objective
`f.real` as a function of the node table, and the update step
`(nodes, f_prev, lam) ↦ (v_1, new lam)`. -/
structure Algo (α : Type) where
  name : String
  f : List (Date × α) → α
  update : List (Date × α) → α → α → List α × α

section Solver

variable {α : Type} [LinearOrderedField α]
variable [DecidableRel ((· < ·) : α → α → Prop)]

/-- The write-back loop: node 0 is skipped (`continue`), node `i ≥ 1`
receives `v_1[i-1]`. -/
def writeNodesGo (v1 : List α) : Nat → List (Date × α) → List (Date × α)
  | _, [] => []
  | i, kv :: rest =>
      (if i = 0 then kv else (kv.1, v1.getD (i - 1) kv.2)) :: writeNodesGo v1 (i + 1) rest

def writeNodes (nodes : List (Date × α)) (v1 : List α) : List (Date × α) :=
  writeNodesGo v1 0 nodes

/-- State after `iterate` returns: the mutated fields of the solver object
plus the returned status. -/
structure IterResult (α : Type) where
  nodes : List (Date × α)
  lam : α
  f_prev : α
  v : List α
  f : α
  f_list : List α
  status : TermStatus α

/-- The loop of `iterate`; `fuel` is the number of remaining iterations of
`range(max_i)`, `i` the current index, `fv`/`vv` the persisted `self.f` /
`self.v` attributes (overwritten by `calculate_metrics` on every
iteration). -/
def iterGo (algo : Algo α) (tol : α) (fuel i : Nat) (nodes : List (Date × α))
    (lam f_prev fv : α) (vv : List α) (hist : List α) : IterResult α :=
  match fuel with
  | 0 => ⟨nodes, 1000, f_prev, vv, fv, hist, .maxIterations algo.name fv⟩
  | fuel' + 1 =>
      let f := algo.f nodes
      let vNew := (nodes.drop 1).map Prod.snd
      if f < f_prev ∧ f_prev - f < tol then
        ⟨nodes, 1000, f_prev, vNew, f, hist ++ [f], .toleranceReached algo.name i f⟩
      else
        iterGo algo tol fuel' (i + 1) (writeNodes nodes (algo.update nodes f_prev lam).1)
          (algo.update nodes f_prev lam).2 f f vNew (hist ++ [f])

/-- The solver object's fields that `iterate` reads on entry. -/
structure SolverSt (α : Type) where
  nodes : List (Date × α)
  lam : α
  f : α
  v : List α

/-- `SolvedCurve.iterate(max_i, tol)`: `f_prev` starts at `1e10`,
`f_list` at `[]`. -/
def SolvedCurve.iterate (algo : Algo α) (st : SolverSt α) (max_i : Nat) (tol : α) :
    IterResult α :=
  iterGo algo tol max_i 0 st.nodes st.lam ((10 : α) ^ 10) st.f st.v []

/-- `iterate()` at the default arguments `max_i = 2000`, `tol = 1e-10`. -/
def SolvedCurve.iterateDefault (algo : Algo α) (st : SolverSt α) : IterResult α :=
  SolvedCurve.iterate algo st 2000 (1 / 10 ^ 10)

/-- `lam` is reset to 1000 on every exit path. -/
theorem iterGo_lam (algo : Algo α) (tol : α) (fuel i : Nat) (nodes : List (Date × α))
    (lam f_prev fv : α) (vv hist : List α) :
    (iterGo algo tol fuel i nodes lam f_prev fv vv hist).lam = 1000 := by
  induction fuel generalizing i nodes lam f_prev fv vv hist with
  | zero => rfl
  | succ fuel' ih =>
    rw [iterGo]
    split
    · rfl
    · exact ih _ _ _ _ _ _ _

/-- One `f.real` is appended to `f_list` per executed iteration, and the
loop executes at most `fuel` iterations. -/
theorem iterGo_length_le (algo : Algo α) (tol : α) (fuel i : Nat)
    (nodes : List (Date × α)) (lam f_prev fv : α) (vv hist : List α) :
    (iterGo algo tol fuel i nodes lam f_prev fv vv hist).f_list.length ≤
      hist.length + fuel := by
  induction fuel generalizing i nodes lam f_prev fv vv hist with
  | zero => simp [iterGo]
  | succ fuel' ih =>
    rw [iterGo]
    split
    · simp only [List.length_append, List.length_singleton]
      omega
    · calc (iterGo algo tol fuel' _ _ _ _ _ _ _).f_list.length
          ≤ (hist ++ [algo.f nodes]).length + fuel' := ih _ _ _ _ _ _ _
        _ ≤ hist.length + (fuel' + 1) := by
            simp only [List.length_append, List.length_singleton]
            omega

/-- A `maxIterations` status means every available iteration ran (so with
`hist = []`, exactly `fuel` entries of `f_list`), under the algorithm's
name. -/
theorem iterGo_maxIterations (algo : Algo α) (tol : α) (fuel i : Nat)
    (nodes : List (Date × α)) (lam f_prev fv : α) (vv hist : List α) :
    ∀ name f, (iterGo algo tol fuel i nodes lam f_prev fv vv hist).status =
        .maxIterations name f →
      (iterGo algo tol fuel i nodes lam f_prev fv vv hist).f_list.length =
        hist.length + fuel ∧ name = algo.name := by
  induction fuel generalizing i nodes lam f_prev fv vv hist with
  | zero =>
    intro name f h
    simp only [iterGo] at h ⊢
    cases h
    exact ⟨rfl, rfl⟩
  | succ fuel' ih =>
    intro name f h
    rw [iterGo] at h ⊢
    split at h
    · simp at h
    · rename_i hc
      rw [if_neg hc]
      obtain ⟨h1, h2⟩ := ih _ _ _ _ _ _ _ name f h
      refine ⟨?_, h2⟩
      rw [h1]
      simp only [List.length_append, List.length_singleton]
      omega

/-- A `toleranceReached i f` status carries the algorithm's name, the
iteration index at which the loop broke (`f_list` then holds `i + 1`
entries when starting from an empty history at index 0), and the last
appended objective value `f`. -/
theorem iterGo_tolerance (algo : Algo α) (tol : α) (fuel i : Nat)
    (nodes : List (Date × α)) (lam f_prev fv : α) (vv hist : List α) :
    ∀ name j f, (iterGo algo tol fuel i nodes lam f_prev fv vv hist).status =
        .toleranceReached name j f →
      name = algo.name ∧ i ≤ j ∧
      (iterGo algo tol fuel i nodes lam f_prev fv vv hist).f_list.length =
        hist.length + (j - i) + 1 ∧
      (iterGo algo tol fuel i nodes lam f_prev fv vv hist).f_list.getLast? = some f := by
  induction fuel generalizing i nodes lam f_prev fv vv hist with
  | zero =>
    intro name j f h
    simp only [iterGo] at h
    simp at h
  | succ fuel' ih =>
    intro name j f h
    rw [iterGo] at h ⊢
    split at h
    · rename_i hc
      rw [if_pos hc]
      obtain ⟨h1, h2, h3⟩ := TermStatus.toleranceReached.inj h
      subst h1
      subst h2
      subst h3
      refine ⟨rfl, le_refl _, by simp, by simp⟩
    · rename_i hc
      rw [if_neg hc]
      obtain ⟨e1, e2, e3, e4⟩ := ih _ _ _ _ _ _ _ name j f h
      refine ⟨e1, by omega, ?_, e4⟩
      rw [e3]
      simp only [List.length_append, List.length_singleton]
      omega

/-! ### Theorems: claims C1 and C2 -/

/-- C1: `iterate(max_i, tol)` runs at most `max_i` iterations (default
2000), appending `f.real` to `f_list` on each executed iteration; it stops
with the success status exactly when `f` decreased relative to the previous
iteration with the decrease strictly below `tol` (default `1e-10`), and
otherwise writes the update back into nodes `1..n` and continues; `lam` is
reset to 1000 on every exit; exhausting `max_i` yields the `maxIterations`
status value — a returned status, not a raised exception. -/
theorem iterate_loop_spec (algo : Algo α) (st : SolverSt α) (max_i : Nat) (tol : α) :
    (SolvedCurve.iterate algo st max_i tol).lam = 1000 ∧
    (SolvedCurve.iterate algo st max_i tol).f_list.length ≤ max_i ∧
    (∀ name f, (SolvedCurve.iterate algo st max_i tol).status =
        .maxIterations name f →
      (SolvedCurve.iterate algo st max_i tol).f_list.length = max_i ∧
      name = algo.name) ∧
    (∀ name i f, (SolvedCurve.iterate algo st max_i tol).status =
        .toleranceReached name i f →
      name = algo.name ∧
      (SolvedCurve.iterate algo st max_i tol).f_list.length = i + 1 ∧
      (SolvedCurve.iterate algo st max_i tol).f_list.getLast? = some f) ∧
    (∀ (fuel i : Nat) (nodes : List (Date × α)) (lam f_prev fv : α) (vv hist : List α),
      (algo.f nodes < f_prev ∧ f_prev - algo.f nodes < tol →
        iterGo algo tol (fuel + 1) i nodes lam f_prev fv vv hist =
          ⟨nodes, 1000, f_prev, (nodes.drop 1).map Prod.snd, algo.f nodes,
            hist ++ [algo.f nodes], .toleranceReached algo.name i (algo.f nodes)⟩) ∧
      (¬ (algo.f nodes < f_prev ∧ f_prev - algo.f nodes < tol) →
        iterGo algo tol (fuel + 1) i nodes lam f_prev fv vv hist =
          iterGo algo tol fuel (i + 1)
            (writeNodes nodes (algo.update nodes f_prev lam).1)
            (algo.update nodes f_prev lam).2 (algo.f nodes) (algo.f nodes)
            ((nodes.drop 1).map Prod.snd) (hist ++ [algo.f nodes]))) ∧
    SolvedCurve.iterateDefault algo st =
      SolvedCurve.iterate algo st 2000 (1 / 10 ^ 10) := by
  refine ⟨iterGo_lam algo tol max_i 0 st.nodes st.lam _ st.f st.v [], ?_, ?_, ?_, ?_, rfl⟩
  · simpa [SolvedCurve.iterate] using
      iterGo_length_le algo tol max_i 0 st.nodes st.lam ((10 : α) ^ 10) st.f st.v []
  · intro name f h
    simp only [SolvedCurve.iterate] at h ⊢
    simpa using iterGo_maxIterations algo tol max_i 0 st.nodes st.lam _ st.f st.v []
      name f h
  · intro name i f h
    simp only [SolvedCurve.iterate] at h ⊢
    obtain ⟨e1, e2, e3, e4⟩ := iterGo_tolerance algo tol max_i 0 st.nodes st.lam _
      st.f st.v [] name i f h
    refine ⟨e1, ?_, e4⟩
    rw [e3]
    simp
  · intro fuel i nodes lam f_prev fv vv hist
    constructor
    · intro hc
      simp only [iterGo]
      rw [if_pos hc]
    · intro hc
      simp only [iterGo]
      rw [if_neg hc]

/-- A minimal concrete solver engine over `ℚ` (constant objective, identity
update), used by witnesses. -/
def qAlgo : Algo ℚ :=
  ⟨"gauss_newton", fun _ => 1, fun nodes _ lam => ((nodes.drop 1).map Prod.snd, lam)⟩

/-- A concrete two-node solver state over `ℚ`. -/
def qSt : SolverSt ℚ :=
  ⟨[(⟨2020, 1, 1⟩, 1), (⟨2021, 1, 1⟩, 5)], 1000, 0, []⟩

/-- C1 witness: a concrete two-iteration run under the constant objective
never meets the tolerance test, exhausts `max_i = 2` and reports the
`maxIterations` status with two history entries. -/
theorem iterate_loop_spec_witness :
    (SolvedCurve.iterate qAlgo qSt 2 1).f_list.length = 2 ∧
    "gauss_newton" = qAlgo.name := by
  have hs : (SolvedCurve.iterate qAlgo qSt 2 1).status =
      TermStatus.maxIterations "gauss_newton" 1 := by
    norm_num [SolvedCurve.iterate, iterGo, qAlgo, qSt, writeNodes, writeNodesGo]
  exact (iterate_loop_spec qAlgo qSt 2 1).2.2.1 "gauss_newton" 1 hs

/-- The write-back keeps every node's date. -/
theorem writeNodesGo_map_fst (v1 : List α) (i : Nat) (nodes : List (Date × α)) :
    (writeNodesGo v1 i nodes).map Prod.fst = nodes.map Prod.fst := by
  induction nodes generalizing i with
  | nil => rfl
  | cons kv rest ih =>
    simp only [writeNodesGo, List.map_cons, ih]
    congr 1
    split <;> rfl

/-- The write-back skips node 0 entirely (`if i == 0: continue`). -/
theorem writeNodes_head (nodes : List (Date × α)) (v1 : List α) :
    (writeNodes nodes v1).head? = nodes.head? := by
  cases nodes with
  | nil => rfl
  | cons kv rest => rfl

/-- The loop never touches node 0 nor any node date. -/
theorem iterGo_anchor (algo : Algo α) (tol : α) (fuel i : Nat)
    (nodes : List (Date × α)) (lam f_prev fv : α) (vv hist : List α) :
    (iterGo algo tol fuel i nodes lam f_prev fv vv hist).nodes.head? = nodes.head? ∧
    (iterGo algo tol fuel i nodes lam f_prev fv vv hist).nodes.map Prod.fst =
      nodes.map Prod.fst := by
  induction fuel generalizing i nodes lam f_prev fv vv hist with
  | zero => exact ⟨rfl, rfl⟩
  | succ fuel' ih =>
    rw [iterGo]
    split
    · exact ⟨rfl, rfl⟩
    · obtain ⟨ihh, ihm⟩ := ih (i + 1) (writeNodes nodes (algo.update nodes f_prev lam).1)
        (algo.update nodes f_prev lam).2 (algo.f nodes) (algo.f nodes)
        ((nodes.drop 1).map Prod.snd) (hist ++ [algo.f nodes])
      exact ⟨ihh.trans (writeNodes_head nodes _),
        ihm.trans (writeNodesGo_map_fst _ 0 nodes)⟩

/-- C2: `iterate` never mutates node 0 (anchor date and value are
unchanged), and no node date is touched — only the values at nodes `1..n`
are rewritten. -/
theorem iterate_preserves_anchor_node (algo : Algo α) (st : SolverSt α)
    (max_i : Nat) (tol : α) :
    (SolvedCurve.iterate algo st max_i tol).nodes.head? = st.nodes.head? ∧
    (SolvedCurve.iterate algo st max_i tol).nodes.map Prod.fst =
      st.nodes.map Prod.fst :=
  iterGo_anchor algo tol max_i 0 st.nodes st.lam _ st.f st.v []

/-- C2 witness: the anchor node of the concrete `ℚ` run is unchanged. -/
theorem iterate_preserves_anchor_node_witness :
    (SolvedCurve.iterate qAlgo qSt 2 1).nodes.head? = qSt.nodes.head? :=
  (iterate_preserves_anchor_node qAlgo qSt 2 1).1

end Solver

/-! ### The sensitivity engine (`grad_s_v` / `grad_s_v_numeric`)

`grad_s_v_numeric` builds two fresh solver copies per quote index `j`
(`type(self)(**kwargs)` with `algorithm="gauss_newton"`), each seeded with a
deep copy of the already-solved nodes and the quote vector with entry `j`
shifted by `+ds` resp. `-ds`, `ds = 1e-2`; each copy is re-solved by
`iterate()` at its defaults, and row `j` of the `m × n` result is assembled
as `((v₊ - v)/ds - (v₋ - v)/ds)/2` from the copies' final `v` vectors and
the solved curve's own `v`.  The property `grad_s_v` populates the cached
attribute on first access and afterwards returns it without re-solving. -/

section Sensitivity

variable {α : Type} [LinearOrderedField α]
variable [DecidableRel ((· < ·) : α → α → Prop)]

/-- `s_cv.s[j, 0] += ds` applied to a fresh copy of the quote vector. -/
def shiftQuote (s : List α) (j : Nat) (ds : α) : List α :=
  s.mapIdx fun i x => if i = j then x + ds else x

/-- One perturbed re-solve: the fresh copy starts at `lam = 1000` (from
`__init__`) with the given nodes, runs `iterate()` at the default
`max_i = 2000`, `tol = 1e-10`, and its `.v` attribute is read off.  The
engine parameter maps a quote vector to the solver internals (which the
source fixes to `algorithm="gauss_newton"`). -/
def solveGNv (engine : List α → Algo α) (nodes : List (Date × α)) (s : List α) :
    List α :=
  (SolvedCurve.iterate (engine s) ⟨nodes, 1000, 0, []⟩ 2000 (1 / 10 ^ 10)).v

/-- The solved curve's fields read by the sensitivity engine. -/
structure SCObj (α : Type) where
  nodes : List (Date × α)
  v : List α
  s : List α
  grad_cache : Option (List (List α))

/-- `grad_s_v_numeric(self)`. -/
def grad_s_v_numeric (engine : List α → Algo α) (o : SCObj α) : List (List α) :=
  (List.range o.s.length).map fun j =>
    List.zipWith (fun x y => (x - y) / 2)
      (List.zipWith (fun a v => (a - v) / (1 / 100))
        (solveGNv engine o.nodes (shiftQuote o.s j (1 / 100))) o.v)
      (List.zipWith (fun b v => (b - v) / (1 / 100))
        (solveGNv engine o.nodes (shiftQuote o.s j (-(1 / 100)))) o.v)

/-- The lazy property `grad_s_v`: compute-and-cache on first access,
return the stored matrix unchanged afterwards. -/
def grad_s_v (engine : List α → Algo α) (o : SCObj α) :
    List (List α) × SCObj α :=
  match o.grad_cache with
  | some g => (g, o)
  | none => (grad_s_v_numeric engine o,
      { o with grad_cache := some (grad_s_v_numeric engine o) })

/-- The write-back preserves the node count. -/
theorem writeNodesGo_length (v1 : List α) (i : Nat) (nodes : List (Date × α)) :
    (writeNodesGo v1 i nodes).length = nodes.length := by
  induction nodes generalizing i with
  | nil => rfl
  | cons kv rest ih => simp [writeNodesGo, ih]

/-- After at least one iteration, the solver's `v` holds exactly the
`n = nodes - 1` free values. -/
theorem iterGo_v_length (algo : Algo α) (tol : α) (fuel i : Nat)
    (nodes : List (Date × α)) (lam f_prev fv : α) (vv hist : List α)
    (hfuel : 1 ≤ fuel) :
    (iterGo algo tol fuel i nodes lam f_prev fv vv hist).v.length =
      nodes.length - 1 := by
  induction fuel generalizing i nodes lam f_prev fv vv hist with
  | zero => omega
  | succ fuel' ih =>
    rw [iterGo]
    split
    · simp
    · cases fuel' with
      | zero => simp [iterGo]
      | succ fuel'' =>
        rw [ih _ _ _ _ _ _ _ (by omega)]
        rw [writeNodes, writeNodesGo_length]

/-- Pointwise algebra of the assembled row:
`((a - v)/ds - (b - v)/ds)/2 = (a - b)/(2 ds)` for `ds = 1e-2`. -/
theorem zipWith_central_difference (vF vB sv : List α)
    (h1 : vF.length = sv.length) (h2 : vB.length = sv.length) :
    List.zipWith (fun x y => (x - y) / 2)
      (List.zipWith (fun a v => (a - v) / (1 / 100)) vF sv)
      (List.zipWith (fun b v => (b - v) / (1 / 100)) vB sv)
    = List.zipWith (fun a b => (a - b) / (2 * (1 / 100))) vF vB := by
  induction vF generalizing vB sv with
  | nil => simp
  | cons a tF ih =>
    cases sv with
    | nil => simp at h1
    | cons v tS =>
      cases vB with
      | nil => simp
      | cons b tB =>
        simp only [List.zipWith_cons_cons, List.cons.injEq]
        refine ⟨?_, ih tB tS (by simpa using h1) (by simpa using h2)⟩
        have h100 : (1 : α) / 100 ≠ 0 := by norm_num
        field_simp
        ring

/-! ### Theorems: claim C3 -/

/-- C3: on first access (`grad_cache = None`) the engine computes the
numeric central-difference matrix and stores it; on later accesses the
stored matrix is returned with the state unchanged (no re-solving).  The
matrix has one row per quote (`m` rows); row `j` equals
`(v₊ - v₋)/(2·ds)` with `ds = 1e-2`, where `v₊`/`v₋` are the `.v` vectors
of the two gauss-newton re-solves from the solved nodes with quote `j`
shifted by `±ds`; and each re-solve's `v` has exactly `n = nodes − 1`
entries. -/
theorem grad_s_v_spec (engine : List α → Algo α) (o : SCObj α) :
    (o.grad_cache = none →
      grad_s_v engine o = (grad_s_v_numeric engine o,
        { o with grad_cache := some (grad_s_v_numeric engine o) })) ∧
    (∀ g, o.grad_cache = some g → grad_s_v engine o = (g, o)) ∧
    (grad_s_v_numeric engine o).length = o.s.length ∧
    (∀ j, j < o.s.length →
      (solveGNv engine o.nodes (shiftQuote o.s j (1 / 100))).length = o.v.length →
      (solveGNv engine o.nodes (shiftQuote o.s j (-(1 / 100)))).length = o.v.length →
      (grad_s_v_numeric engine o).getD j [] =
        List.zipWith (fun a b => (a - b) / (2 * (1 / 100)))
          (solveGNv engine o.nodes (shiftQuote o.s j (1 / 100)))
          (solveGNv engine o.nodes (shiftQuote o.s j (-(1 / 100))))) ∧
    (∀ (nodes : List (Date × α)) (s : List α),
      (solveGNv engine nodes s).length = nodes.length - 1) := by
  refine ⟨?_, ?_, ?_, ?_, ?_⟩
  · intro h
    rw [grad_s_v, h]
  · intro g h
    rw [grad_s_v, h]
  · simp [grad_s_v_numeric]
  · intro j hj h1 h2
    have hlen : j < ((List.range o.s.length).map (fun j =>
        List.zipWith (fun x y => (x - y) / 2)
          (List.zipWith (fun a v => (a - v) / (1 / 100))
            (solveGNv engine o.nodes (shiftQuote o.s j (1 / 100))) o.v)
          (List.zipWith (fun b v => (b - v) / (1 / 100))
            (solveGNv engine o.nodes (shiftQuote o.s j (-(1 / 100)))) o.v))).length := by
      simpa using hj
    rw [grad_s_v_numeric, List.getD_eq_getElem _ _ hlen, List.getElem_map,
      List.getElem_range]
    exact zipWith_central_difference _ _ _ h1 h2
  · intro nodes s
    exact iterGo_v_length (engine s) (1 / 10 ^ 10) 2000 0 nodes 1000 _ 0 [] []
      (by omega)

/-- Constant engine over `ℚ` for the C3 witness. -/
def qEngine : List ℚ → Algo ℚ := fun _ => qAlgo

/-- A solved-curve state over `ℚ` whose sensitivity cache is already
populated, for the C3 witness. -/
def qObj : SCObj ℚ :=
  ⟨[(⟨2020, 1, 1⟩, 1), (⟨2021, 1, 1⟩, 5)], [5], [2], some [[0]]⟩

/-- C3 witness: a cache hit returns the stored matrix and leaves the state
unchanged. -/
theorem grad_s_v_spec_witness :
    grad_s_v qEngine qObj = ([[0]], qObj) :=
  (grad_s_v_spec qEngine qObj).2.1 [[0]] rfl

end Sensitivity

/-! ### The update-step linear system (claim C4)

`update_step_gauss_newton` builds `A = J @ (J.T if W is None else W @ J.T)`
and solves `A δ = -0.5 ∇f`.  The attribute `J` of `calculate_metrics` is
the `n × m` array `J[j, k] = ∂r_k/∂v_{j+1}` (rows indexed by nodes, columns
by swaps), so `J.T` is `m × n`, `W` is `m × m`, and the product is the
`n × n` matrix below — dimensionally well-formed for every `n` and `m`.
`numpy.linalg.solve` raises exactly when `A` is singular (`det A = 0`),
which the spec's error taxonomy files under `DimensionError`.
`update_step_levenberg_marquardt` adds `lam * eye(n)` to the same
product. -/

/-- `J @ (J.T if W is None else W @ J.T)` of `update_step_gauss_newton`. -/
noncomputable def gnMatrix {n m : Nat} (J : Matrix (Fin n) (Fin m) ℝ)
    (W : Option (Matrix (Fin m) (Fin m) ℝ)) : Matrix (Fin n) (Fin n) ℝ :=
  J * (Option.elim W J.transpose (fun w => w * J.transpose))

/-- `J @ WJ_T + lam * eye(n)` of `update_step_levenberg_marquardt`. -/
noncomputable def lmMatrix {n m : Nat} (J : Matrix (Fin n) (Fin m) ℝ)
    (W : Option (Matrix (Fin m) (Fin m) ℝ)) (lam : ℝ) :
    Matrix (Fin n) (Fin n) ℝ :=
  gnMatrix J W + lam • (1 : Matrix (Fin n) (Fin n) ℝ)

/-- With `m` quotes and `n > m` free nodes the Gauss–Newton system factors
through `ℝ^m` and is singular. -/
theorem gnMatrix_det_eq_zero_of_lt {n m : Nat} (h : m < n)
    (J : Matrix (Fin n) (Fin m) ℝ) (W : Option (Matrix (Fin m) (Fin m) ℝ)) :
    (gnMatrix J W).det = 0 := by
  set M : Matrix (Fin m) (Fin n) ℝ :=
    Option.elim W J.transpose (fun w => w * J.transpose) with hM
  have hker : LinearMap.ker M.mulVecLin ≠ ⊥ := by
    apply LinearMap.ker_ne_bot_of_finrank_lt
    rw [Module.finrank_fin_fun, Module.finrank_fin_fun]
    exact h
  obtain ⟨v, hv_mem, hv_ne⟩ := (Submodule.ne_bot_iff _).mp hker
  refine Matrix.exists_mulVec_eq_zero_iff.mp ⟨v, hv_ne, ?_⟩
  have hMv : M.mulVec v = 0 := by
    have := LinearMap.mem_ker.mp hv_mem
    simpa [Matrix.mulVecLin_apply] using this
  calc (gnMatrix J W).mulVec v = J.mulVec (M.mulVec v) :=
        (Matrix.mulVec_mulVec v J M).symm
    _ = 0 := by rw [hMv, Matrix.mulVec_zero]

/-- The `n = 1`, `m = 2` Gauss–Newton system at `J = [[1, 0]]` (shared by
the C4 theorems). -/
theorem gnMatrix_one_two :
    gnMatrix (Matrix.of ![![(1 : ℝ), 0]]) none = Matrix.of ![![(1 : ℝ)]] := by
  ext i j
  fin_cases i
  fin_cases j
  simp [gnMatrix, Matrix.mul_apply, Fin.sum_univ_two, Matrix.transpose]

/-! ### Theorems: claim C4 -/

/-- C4 counterexample: with `n = 1` free node and `m = 2` quotes
(`n ≠ m`), the Gauss–Newton system at `J = [[1, 0]]` (with `W = None`) is
the 1×1 matrix `[[1]]` with determinant `1 ≠ 0`, so `np.linalg.solve`
succeeds: the update does not fail for this non-square case, contradicting
the claim that it succeeds only when `n == m`. -/
theorem gn_update_nonsquare_succeeds :
    (gnMatrix (Matrix.of ![![(1 : ℝ), 0]]) none).det = 1 ∧ (1 : ℝ) ≠ 0 ∧
    (1 : Nat) ≠ 2 := by
  refine ⟨?_, one_ne_zero, by omega⟩
  rw [gnMatrix_one_two, Matrix.det_fin_one]
  rfl

/-- C4 amended: the system `J @ (W @ J.T)` is `n × n` and dimensionally
well-formed for every `n` and `m`; it is necessarily singular — so the
linear solve fails — whenever `n > m`; when `n < m` it can be nonsingular
(witness `n = 1`, `m = 2`, `J = [[1, 0]]`), and the Levenberg–Marquardt
variant with its `lam`-damping can likewise be nonsingular for `n ≠ m`
(same `J`, `lam = 1000`, determinant `1001`): the square case `n == m` is
not the only one in which the update succeeds. -/
theorem gn_update_singular_iff_shape :
    (∀ (n m : Nat) (J : Matrix (Fin n) (Fin m) ℝ)
      (W : Option (Matrix (Fin m) (Fin m) ℝ)), m < n → (gnMatrix J W).det = 0) ∧
    (gnMatrix (Matrix.of ![![(1 : ℝ), 0]]) none).det ≠ 0 ∧
    (lmMatrix (Matrix.of ![![(1 : ℝ), 0]]) none 1000).det = 1001 := by
  refine ⟨fun n m J W h => gnMatrix_det_eq_zero_of_lt h J W, ?_, ?_⟩
  · rw [gnMatrix_one_two, Matrix.det_fin_one]
    norm_num
  · rw [lmMatrix, gnMatrix_one_two, Matrix.det_fin_one]
    norm_num [Matrix.add_apply, Matrix.smul_apply, Matrix.one_apply]

/-- C4 witness: the singularity part applied at the concrete
overdetermined-in-nodes shape `n = 2 > m = 1`, `J = [[1], [0]]`. -/
theorem gn_update_singular_iff_shape_witness :
    (gnMatrix (Matrix.of ![![(1 : ℝ)], ![0]]) none).det = 0 :=
  gn_update_singular_iff_shape.1 2 1 (Matrix.of ![![(1 : ℝ)], ![0]]) none
    (by omega)
